import Mathlib

/-!
Verification of the chat-application-network repository (src/server.py,
src/client.py) against its natural-language specification.

The Python code is shallowly embedded: the registry dict is an association
list, sockets are natural-number handles, packets are a closed sum type,
send failures are modelled by a predicate on socket handles, and an
`OSError` escaping a handler is an explicit `exn` flag in the result.
-/

set_option maxRecDepth 4000

/-! ## Framer / codec: newline-delimited line extraction

Embeds the loop
  `buffer += data.decode(ENCODING)`
  `while DELIMITER in buffer: line, buffer = buffer.split(DELIMITER, 1)`
used in `ChatServer.handle_new_client` and `ChatClient.listen_loop`:
all complete (newline-terminated) lines are extracted in order, the
unterminated tail stays in the buffer. -/

def extract_lines : List Char → List (List Char) × List Char
  | [] => ([], [])
  | c :: rest =>
      let p := extract_lines rest
      if c = '\n' then (([] : List Char) :: p.1, p.2)
      else
        match p.1 with
        | [] => ([], c :: p.2)
        | l :: ls => ((c :: l) :: ls, p.2)

/-- Python `line.strip()` is falsy exactly when every character is whitespace. -/
def is_blank (l : List Char) : Bool := l.all Char.isWhitespace

/-- One pass of the read loop on a decoded chunk: append to the buffer,
extract the complete lines, hand over the non-blank ones
(`if line.strip(): handle(line)`). -/
def feed_chunk (buf chunk : List Char) : List (List Char) × List Char :=
  let p := extract_lines (buf ++ chunk)
  (p.1.filter (fun l => !is_blank l), p.2)

/-- Iterating the read loop over a list of decoded chunks. -/
def feed_chunks : List Char → List (List Char) → List (List Char) × List Char
  | buf, [] => ([], buf)
  | buf, ch :: rest =>
      let p := feed_chunk buf ch
      let q := feed_chunks p.2 rest
      (p.1 ++ q.1, q.2)

theorem extract_lines_cons (c : Char) (rest : List Char) :
    extract_lines (c :: rest) =
      if c = '\n' then (([] : List Char) :: (extract_lines rest).1, (extract_lines rest).2)
      else
        match (extract_lines rest).1 with
        | [] => ([], c :: (extract_lines rest).2)
        | l :: ls => ((c :: l) :: ls, (extract_lines rest).2) := rfl

theorem extract_lines_append (s t : List Char) :
    extract_lines (s ++ t) =
      ((extract_lines s).1 ++ (extract_lines ((extract_lines s).2 ++ t)).1,
       (extract_lines ((extract_lines s).2 ++ t)).2) := by
  induction s with
  | nil => simp [extract_lines]
  | cons c rest ih =>
      rw [List.cons_append, extract_lines_cons, extract_lines_cons, ih]
      by_cases hc : c = '\n'
      · simp [hc]
      · simp only [hc, if_false]
        cases h1 : (extract_lines rest).1 with
        | nil =>
            simp only [h1, List.nil_append]
            rw [List.cons_append, extract_lines_cons]
            simp only [hc, if_false]
        | cons l ls => simp [h1]

theorem extract_lines_no_delim (s : List Char) (h : '\n' ∉ s) :
    extract_lines s = ([], s) := by
  induction s with
  | nil => rfl
  | cons c rest ih =>
      rw [List.mem_cons, not_or] at h
      have hc : ¬ c = '\n' := fun e => h.1 e.symm
      rw [extract_lines_cons, ih h.2]
      simp [hc]

theorem extract_lines_buffer_no_delim (s : List Char) :
    '\n' ∉ (extract_lines s).2 := by
  induction s with
  | nil => simp [extract_lines]
  | cons c rest ih =>
      rw [extract_lines_cons]
      by_cases hc : c = '\n'
      · simpa [hc] using ih
      · simp only [hc, if_false]
        cases h1 : (extract_lines rest).1 with
        | nil =>
            simp only [h1]
            intro hmem
            rcases List.mem_cons.mp hmem with he | he
            · exact hc he.symm
            · exact ih he
        | cons l ls => simpa [h1] using ih

theorem feed_chunks_eq_feed_whole (chunks : List (List Char)) :
    ∀ buf : List Char, '\n' ∉ buf →
      feed_chunks buf chunks = feed_chunk buf chunks.flatten := by
  induction chunks with
  | nil =>
      intro buf h
      simp [feed_chunks, feed_chunk, extract_lines_no_delim buf h]
  | cons ch rest ih =>
      intro buf h
      have hbuf2 : '\n' ∉ (extract_lines (buf ++ ch)).2 :=
        extract_lines_buffer_no_delim (buf ++ ch)
      simp only [feed_chunks, feed_chunk, List.flatten_cons]
      rw [ih _ hbuf2]
      simp only [feed_chunk]
      rw [← List.append_assoc buf ch rest.flatten,
        extract_lines_append (buf ++ ch) rest.flatten]
      simp [List.filter_append]

/-! ## Byte-level reads

Each `recv` chunk is decoded independently by `data.decode(ENCODING)`
(strict UTF-8); a chunk that ends inside a multi-byte character raises
`UnicodeDecodeError`, which neither read loop catches. -/

def utf8_cont (b : Nat) : Bool := 0x80 ≤ b && b < 0xC0

/-- Strict UTF-8 decoding of a byte list, as Python's `bytes.decode("utf-8")`:
`none` on truncated, stray-continuation, overlong or out-of-range input. -/
def utf8_decode : List Nat → Option (List Char)
  | [] => some []
  | b1 :: rest =>
      if b1 < 0x80 then
        (utf8_decode rest).map (fun cs => Char.ofNat b1 :: cs)
      else if b1 < 0xC2 then none
      else if b1 < 0xE0 then
        match rest with
        | [] => none
        | b2 :: rest2 =>
            if utf8_cont b2 then
              (utf8_decode rest2).map
                (fun cs => Char.ofNat ((b1 - 0xC0) * 64 + (b2 - 0x80)) :: cs)
            else none
      else if b1 < 0xF0 then
        match rest with
        | b2 :: b3 :: rest3 =>
            if utf8_cont b2 && utf8_cont b3
                && !(b1 = 0xE0 && b2 < 0xA0) && !(b1 = 0xED && 0xA0 ≤ b2) then
              (utf8_decode rest3).map
                (fun cs =>
                  Char.ofNat ((b1 - 0xE0) * 4096 + (b2 - 0x80) * 64 + (b3 - 0x80)) :: cs)
            else none
        | _ => none
      else if b1 < 0xF5 then
        match rest with
        | b2 :: b3 :: b4 :: rest4 =>
            if utf8_cont b2 && utf8_cont b3 && utf8_cont b4
                && !(b1 = 0xF0 && b2 < 0x90) && !(b1 = 0xF4 && 0x90 ≤ b2) then
              (utf8_decode rest4).map
                (fun cs =>
                  Char.ofNat ((b1 - 0xF0) * 262144 + (b2 - 0x80) * 4096
                    + (b3 - 0x80) * 64 + (b4 - 0x80)) :: cs)
            else none
        | _ => none
      else none

/-- The read loop on raw byte chunks: decode each chunk on its own; a decode
failure raises out of the loop (remaining chunks are never processed).
Returns the handled lines and whether a decode error aborted the loop. -/
def feed_byte_chunks : List Char → List (List Nat) → List (List Char) × Bool
  | _, [] => ([], false)
  | buf, ch :: rest =>
      match utf8_decode ch with
      | none => ([], true)
      | some s =>
          let p := feed_chunk buf s
          let q := feed_byte_chunks p.2 rest
          (p.1 ++ q.1, q.2)

/-- Decoding and feeding a whole byte stream in a single read. -/
def feed_bytes_whole (bytes : List Nat) : List (List Char) × Bool :=
  match utf8_decode bytes with
  | none => ([], true)
  | some s => ((feed_chunk [] s).1, false)

/-! ## Identity formatting

`ChatServer.handle_new_client` assigns `client_id = f"C{self.next_client_id:03d}"`:
the counter value rendered in decimal, left-padded with zeros to width 3,
prefixed with `C`. -/

/-- Decimal digit characters of `n`, most significant first (`str(n)` for
positive `n`; empty for 0, which the zero padding then renders as `"000"`,
matching `f"{0:03d}"`). -/
def nat_chars (n : Nat) : List Char := ((Nat.digits 10 n).map Nat.digitChar).reverse

/-- Left zero-padding to width 3, as the `03d` format specifier. -/
def zero_pad3 (s : List Char) : List Char := List.replicate (3 - s.length) '0' ++ s

/-- `f"C{n:03d}"`. -/
def client_id (n : Nat) : String := String.mk ('C' :: zero_pad3 (nat_chars n))

/-- Reading a digit string back as a number (Horner evaluation); a left
inverse of the formatting, used to prove identities are never reused. -/
def decode_digits (s : List Char) : Nat :=
  s.foldl (fun acc c => acc * 10 + (c.toNat - 48)) 0

theorem decode_digits_replicate_zero (k : Nat) :
    (List.replicate k '0').foldl (fun acc c => acc * 10 + (c.toNat - 48)) 0 = 0 := by
  induction k with
  | zero => rfl
  | succ k ih => simpa [List.replicate_succ, List.foldl_cons] using ih

theorem digit_char_to_nat (d : Nat) (h : d < 10) : (Nat.digitChar d).toNat - 48 = d := by
  interval_cases d <;> rfl

theorem foldr_horner_eq_of_digits (l : List Nat) (h : ∀ d ∈ l, d < 10) :
    l.foldr (fun d acc => acc * 10 + ((Nat.digitChar d).toNat - 48)) 0 =
      Nat.ofDigits 10 l := by
  induction l with
  | nil => rfl
  | cons d l ih =>
      have hd : d < 10 := h d (List.mem_cons_self d l)
      have hl : ∀ x ∈ l, x < 10 := fun x hx => h x (List.mem_cons_of_mem d hx)
      rw [List.foldr_cons, ih hl, digit_char_to_nat d hd, Nat.ofDigits_cons]
      omega

theorem decode_digits_pad (n : Nat) : decode_digits (zero_pad3 (nat_chars n)) = n := by
  unfold decode_digits zero_pad3 nat_chars
  rw [List.foldl_append, decode_digits_replicate_zero, List.foldl_reverse,
    List.foldr_map]
  have h : ∀ d ∈ Nat.digits 10 n, d < 10 :=
    fun d hd => Nat.digits_lt_base (by norm_num) hd
  simpa [Function.comp] using
    (foldr_horner_eq_of_digits (Nat.digits 10 n) h).trans (Nat.ofDigits_digits 10 n)

theorem client_id_injective : Function.Injective client_id := by
  intro a b hab
  have h1 : 'C' :: zero_pad3 (nat_chars a) = 'C' :: zero_pad3 (nat_chars b) :=
    congrArg String.data hab
  have h2 : zero_pad3 (nat_chars a) = zero_pad3 (nat_chars b) :=
    (List.cons.injEq _ _ _ _ ▸ h1).2
  calc a = decode_digits (zero_pad3 (nat_chars a)) := (decode_digits_pad a).symm
    _ = decode_digits (zero_pad3 (nat_chars b)) := by rw [h2]
    _ = b := decode_digits_pad b

/-! ## Server data model

`ChatServer.__init__`: `clients` (a dict `client_id -> {"socket", "address",
"name"}`, modelled as an insertion-ordered association list — CPython dict
semantics), `next_client_id`, `message_counter`.  Sockets are opaque handles
(`Nat`); a predicate `fail : Nat → Bool` says which sockets raise `OSError`
on a write.  The `name` field always equals the id ("for now, name == ID")
and is omitted. -/

structure CInfo where
  sock : Nat
  address : String
deriving DecidableEq

structure ServerState where
  clients : List (String × CInfo)
  next_client_id : Nat
  message_counter : Nat
deriving DecidableEq

/-- `self.clients.get(k)`. -/
def dict_get (l : List (String × CInfo)) (k : String) : Option CInfo :=
  (l.find? (fun p => p.1 == k)).map (fun p => p.2)

/-- `self.clients[k] = v`: replace in place if the key exists, else append
(CPython dict insertion-order semantics). -/
def dict_set (l : List (String × CInfo)) (k : String) (v : CInfo) :
    List (String × CInfo) :=
  if l.any (fun p => p.1 == k) then l.map (fun p => if p.1 == k then (k, v) else p)
  else l ++ [(k, v)]

/-- `self.clients.pop(k, None)`, the removal part. -/
def dict_pop (l : List (String × CInfo)) (k : String) : List (String × CInfo) :=
  l.eraseP (fun p => p.1 == k)

/-- Server-to-client packets (`ChatServer`'s JSON dicts as a closed sum).
`sender`/`target` stand for the JSON fields `"from"`/`"to"`. -/
inductive Packet where
  | welcome (client_id : String) (clients : List (String × String))
  | chat (message_id : Nat) (sender : String) (target : String) (text : String)
      (timestamp : Nat) (reply_to : Option Nat)
  | receipt (message_id : Nat) (target : String) (status : String) (timestamp : Nat)
  | client_list (clients : List (String × String))
  | info (text : String) (timestamp : Nat)
  | error (text : String) (timestamp : Nat)
deriving DecidableEq

/-- Observable effects of the server: a successful `send_json` on a socket,
or a `socket.close()`. -/
inductive NetAction where
  | send (sock : Nat) (p : Packet)
  | close (sock : Nat)
deriving DecidableEq

/-- Decoded client-to-server messages (`msg = json.loads(line)`): the fields
each handler `get`s, with `malformed` for a `json.JSONDecodeError` line and
`unknown` for an unrecognised `"type"`. -/
inductive ClientMsg where
  | chat (message_id : Option Nat) (target : Option String) (text : Option String)
      (reply_to : Option Nat)
  | list
  | exit
  | unknown (t : Option String)
  | malformed
deriving DecidableEq

/-- `f"{x}"` for a field that may be `None`. -/
def py_str_opt (x : Option String) : String := x.getD "None"

/-- `ChatServer._client_list_snapshot`. -/
def client_list_snapshot (st : ServerState) : List (String × String) :=
  st.clients.map (fun p => (p.1, p.2.address))

/-- `ChatServer.send_to_client_id`: look the id up again under the lock;
silently drop the packet if the id is gone or the write raises `OSError`. -/
def send_to_client_id (fail : Nat → Bool) (st : ServerState) (cid : String)
    (p : Packet) : List NetAction :=
  match dict_get st.clients cid with
  | none => []
  | some i => if fail i.sock then [] else [NetAction.send i.sock p]

/-- `ChatServer.send_error`. -/
def send_error (fail : Nat → Bool) (st : ServerState) (cid : String)
    (text : String) (now : Nat) : List NetAction :=
  send_to_client_id fail st cid (Packet.error text now)

/-- `ChatServer.send_info`. -/
def send_info (fail : Nat → Bool) (st : ServerState) (cid : String)
    (text : String) (now : Nat) : List NetAction :=
  send_to_client_id fail st cid (Packet.info text now)

/-- `ChatServer.broadcast_info`: one `info` to every client except
`exclude_id`, per-peer `OSError` swallowed. -/
def broadcast_info (fail : Nat → Bool) (st : ServerState) (text : String)
    (exclude : Option String) (now : Nat) : List NetAction :=
  st.clients.filterMap (fun p =>
    if some p.1 = exclude then none
    else if fail p.2.sock then none
    else some (NetAction.send p.2.sock (Packet.info text now)))

/-- The registration block at the top of `ChatServer.handle_new_client`
(under the lock): format the id, bump the counter, insert the record. -/
def register (st : ServerState) (sock : Nat) (addr : String) :
    ServerState × String :=
  let cid := client_id st.next_client_id
  ({ st with
      next_client_id := st.next_client_id + 1,
      clients := dict_set st.clients cid ⟨sock, addr⟩ }, cid)

/-- A sequence of registrations, returning the identities in call order. -/
def register_many : ServerState → List (Nat × String) → ServerState × List String
  | st, [] => (st, [])
  | st, (sock, addr) :: rest =>
      let r := register st sock addr
      let q := register_many r.1 rest
      (q.1, r.2 :: q.2)

structure ConnectResult where
  state : ServerState
  cid : String
  acts : List NetAction
  exn : Bool
deriving DecidableEq

/-- The accept-time part of `ChatServer.handle_new_client`: register, send the
`welcome` packet (an unguarded `send_json`: a raised `OSError` skips the join
broadcast), then broadcast the join notice to everyone else. -/
def handle_connect (fail : Nat → Bool) (st : ServerState) (sock : Nat)
    (addr : String) (now : Nat) : ConnectResult :=
  let r := register st sock addr
  let welcome := Packet.welcome r.2 (client_list_snapshot r.1)
  if fail sock then ⟨r.1, r.2, [], true⟩
  else
    ⟨r.1, r.2,
      NetAction.send sock welcome ::
        broadcast_info fail r.1 (r.2 ++ " joined the chat.") (some r.2) now,
      false⟩

/-- `ChatServer.remove_client`: pop the registry entry; if it was present,
close its socket and broadcast the leave notice to the remaining clients. -/
def remove_client (fail : Nat → Bool) (st : ServerState) (cid : String)
    (now : Nat) : ServerState × List NetAction :=
  match dict_get st.clients cid with
  | none => (st, [])
  | some i =>
      let st' := { st with clients := dict_pop st.clients cid }
      (st', NetAction.close i.sock ::
        broadcast_info fail st' (cid ++ " left the chat.") (some cid) now)

structure StepResult where
  state : ServerState
  acts : List NetAction
  exn : Bool
deriving DecidableEq

/-- `ChatServer.route_chat_message`.  Both registry lookups happen under the
lock before the not-found check; the message id is allocated only after the
target resolves.  The forward to the target and the receipt to the sender are
bare `send_json` calls: an `OSError` there propagates (`exn := true`). -/
def route_chat_message (fail : Nat → Bool) (st : ServerState) (sender_id : String)
    (_incoming_message_id : Option Nat) (target_id : Option String)
    (text : Option String) (reply_to : Option Nat) (now : Nat) : StepResult :=
  let target_info := target_id.bind (fun t => dict_get st.clients t)
  let sender_info := dict_get st.clients sender_id
  match target_info with
  | none =>
      ⟨st,
        send_error fail st sender_id
          ("Target client " ++ py_str_opt target_id ++ " not found.") now,
        false⟩
  | some tinfo =>
      let message_id := st.message_counter
      let st' := { st with message_counter := st.message_counter + 1 }
      let tname := py_str_opt target_id
      let chat_packet :=
        Packet.chat message_id sender_id tname (text.getD "") now reply_to
      if fail tinfo.sock then ⟨st', [], true⟩
      else
        let receipt_packet := Packet.receipt message_id tname "delivered" now
        match sender_info with
        | some sinfo =>
            if fail sinfo.sock then
              ⟨st', [NetAction.send tinfo.sock chat_packet], true⟩
            else
              ⟨st', [NetAction.send tinfo.sock chat_packet,
                     NetAction.send sinfo.sock receipt_packet], false⟩
        | none => ⟨st', [NetAction.send tinfo.sock chat_packet], false⟩

/-- `ChatServer.send_client_list`. -/
def send_client_list (fail : Nat → Bool) (st : ServerState) (cid : String) :
    List NetAction :=
  send_to_client_id fail st cid (Packet.client_list (client_list_snapshot st))

/-- `ChatServer.handle_client_message`: dispatch one decoded line. -/
def handle_client_message (fail : Nat → Bool) (st : ServerState) (cid : String)
    (msg : ClientMsg) (now : Nat) : StepResult :=
  match msg with
  | ClientMsg.malformed => ⟨st, [], false⟩
  | ClientMsg.chat imid tgt text reply_to =>
      route_chat_message fail st cid imid tgt text reply_to now
  | ClientMsg.list => ⟨st, send_client_list fail st cid, false⟩
  | ClientMsg.exit =>
      let a1 := send_info fail st cid "Goodbye!" now
      let r := remove_client fail st cid now
      ⟨r.1, a1 ++ r.2, false⟩
  | ClientMsg.unknown t =>
      ⟨st, send_error fail st cid ("Unknown message type: " ++ py_str_opt t) now,
        false⟩

/-- The inner `while DELIMITER in buffer` body of `handle_new_client`: the
decoded lines of one `recv` are dispatched one after another, whatever the
earlier lines did; only a raised `OSError` aborts the rest. -/
def process_lines (fail : Nat → Bool) :
    ServerState → String → List ClientMsg → Nat → StepResult
  | st, _, [], _ => ⟨st, [], false⟩
  | st, cid, m :: rest, now =>
      let r := handle_client_message fail st cid m now
      if r.exn then ⟨r.state, r.acts, true⟩
      else
        let q := process_lines fail r.state cid rest now
        ⟨q.state, r.acts ++ q.acts, q.exn⟩

/-- A server-lifetime interleaving: decoded messages from any mix of
connections, in arrival order. -/
def run_events (fail : Nat → Bool) :
    ServerState → List (String × ClientMsg × Nat) → ServerState × List NetAction
  | st, [] => (st, [])
  | st, (cid, m, now) :: rest =>
      let r := handle_client_message fail st cid m now
      let q := run_events fail r.state rest
      (q.1, r.acts ++ q.2)

/-- The message ids carried by forwarded `chat` packets, in emission order. -/
def chat_ids (acts : List NetAction) : List Nat :=
  acts.filterMap (fun a =>
    match a with
    | NetAction.send _ (Packet.chat mid _ _ _ _ _) => some mid
    | _ => none)

/-! ## Client history store

`ChatClient.history` is a list of dicts
`{id, direction, peer, text, timestamp, reply_to, temp_until, deleted}`;
`direction` is the string `"out"` or `"in"`. -/

structure Entry where
  id : Option Nat
  direction : String
  peer : String
  text : String
  timestamp : Option Nat
  reply_to : Option Nat
  temp_until : Option Nat
  deleted : Bool
deriving DecidableEq

/-- The membership test of the receipt-reconciliation loop in
`ChatClient.handle_receipt`; `target` is `msg.get("to")`. -/
def receipt_matchb (target : Option String) (m : Entry) : Bool :=
  m.direction == "out" && m.id == none && some m.peer == target && !m.deleted

/-- The Python idiom `for m in history: if cond(m): update(m); break`:
update the first element satisfying `p`, leave everything else alone. -/
def py_first_update (p : α → Bool) (u : α → α) : List α → List α
  | [] => []
  | m :: rest => if p m then u m :: rest else m :: py_first_update p u rest

/-- `ChatClient.handle_receipt`, the history update: fill the first matching
outbound entry's `id` with the receipt's `message_id` and stop. -/
def handle_receipt (history : List Entry) (target : Option String)
    (mid : Option Nat) : List Entry :=
  py_first_update (receipt_matchb target) (fun m => { m with id := mid }) history

/-- The membership test of `ChatClient._temp_cleanup_worker`: content match
on the armed text and deadline, skipping already-deleted entries. -/
def temp_matchb (temp_until : Nat) (text : String) (m : Entry) : Bool :=
  m.text == text && m.temp_until == some temp_until && !m.deleted

/-- `ChatClient._temp_cleanup_worker`, the history update at timer expiry:
mark the first entry matching the armed `(temp_until, text)` pair deleted
and stop. -/
def temp_cleanup_worker (history : List Entry) (temp_until : Nat)
    (text : String) : List Entry :=
  py_first_update (temp_matchb temp_until text) (fun m => { m with deleted := true })
    history

/-- `ChatClient.send_chat`: emit the chat packet `(to, text, reply_to)` and
append the outbound placeholder entry (`id` absent until the receipt). -/
def send_chat (history : List Entry) (target_id : String) (text : String)
    (reply_to : Option Nat) (temp_until : Option Nat) (now : Nat) :
    List Entry × List (String × String × Option Nat) :=
  (history ++ [⟨none, "out", target_id, text, some now, reply_to, temp_until, false⟩],
   [(target_id, text, reply_to)])

/-- `ChatClient.send_reply`: resolve the reply target by scanning history for
the first entry whose `id` equals `msg_id` (no condition on `deleted`); on
failure print locally and send nothing. -/
def send_reply (history : List Entry) (msg_id : Nat) (text : String) (now : Nat) :
    List Entry × List (String × String × Option Nat) :=
  match history.find? (fun m => m.id == some msg_id) with
  | none => (history, [])
  | some m => send_chat history m.peer text (some msg_id) none now

/-! ## Helper lemmas -/

theorem py_first_update_no_match (p : α → Bool) (u : α → α) (l : List α)
    (h : ∀ m ∈ l, p m = false) : py_first_update p u l = l := by
  induction l with
  | nil => rfl
  | cons m rest ih =>
      have hm : p m = false := h m (List.mem_cons_self m rest)
      simp [py_first_update, hm, ih (fun x hx => h x (List.mem_cons_of_mem m hx))]

theorem py_first_update_eq_set (p : α → Bool) (u : α → α) (l : List α) :
    ∀ (i : Nat) (hi : i < l.length), p (l.get ⟨i, hi⟩) = true →
      (∀ (j : Nat) (hj : j < l.length), j < i → p (l.get ⟨j, hj⟩) = false) →
      py_first_update p u l = l.set i (u (l.get ⟨i, hi⟩)) := by
  induction l with
  | nil => intro i hi; exact absurd hi (by simp)
  | cons m rest ih =>
      intro i hi hp hfirst
      cases i with
      | zero => simp only [List.get] at hp; simp [py_first_update, hp, List.set]
      | succ i =>
          have h0 : p m = false := by
            have := hfirst 0 (by simp) (Nat.succ_pos i)
            simpa using this
          have hp' : p (rest.get ⟨i, by simpa using hi⟩) = true := by simpa using hp
          have hfirst' : ∀ (j : Nat) (hj : j < rest.length), j < i →
              p (rest.get ⟨j, hj⟩) = false := by
            intro j hj hji
            have := hfirst (j + 1) (by simpa using Nat.succ_lt_succ hj)
              (Nat.succ_lt_succ hji)
            simpa using this
          simp [py_first_update, h0, List.set,
            ih i (by simpa using hi) hp' hfirst']

theorem py_first_update_idem (p : α → Bool) (u : α → α)
    (hu : ∀ a, p a = true → p (u a) = false) (l : List α)
    (h : (l.filter p).length ≤ 1) :
    py_first_update p u (py_first_update p u l) = py_first_update p u l := by
  induction l with
  | nil => rfl
  | cons m rest ih =>
      by_cases hm : p m = true
      · have hrest : ∀ x ∈ rest, p x = false := by
          intro x hx
          by_contra hx'
          have hxt : p x = true := by
            cases hpx : p x with
            | true => rfl
            | false => exact absurd hpx hx'
          have : 2 ≤ ((m :: rest).filter p).length := by
            rw [List.filter_cons_of_pos hm]
            have hmem : x ∈ rest.filter p := List.mem_filter.mpr ⟨hx, hxt⟩
            have : 1 ≤ (rest.filter p).length := List.length_pos_of_mem hmem
            simp only [List.length_cons]
            omega
          omega
        have hnm : py_first_update p u rest = rest :=
          py_first_update_no_match p u rest hrest
        simp [py_first_update, hm, hu m hm, hnm, hrest]
      · have hm' : p m = false := by
          cases hpm : p m with
          | true => exact absurd hpm hm
          | false => rfl
        have hlen : (rest.filter p).length ≤ 1 := by
          rw [List.filter_cons_of_neg (by simp [hm'])] at h
          exact h
        simp [py_first_update, hm', ih hlen]

theorem find?_eq_get_of_first (p : α → Bool) (l : List α) :
    ∀ (i : Nat) (hi : i < l.length), p (l.get ⟨i, hi⟩) = true →
      (∀ (j : Nat) (hj : j < l.length), j < i → p (l.get ⟨j, hj⟩) = false) →
      l.find? p = some (l.get ⟨i, hi⟩) := by
  induction l with
  | nil => intro i hi; exact absurd hi (by simp)
  | cons m rest ih =>
      intro i hi hp hfirst
      cases i with
      | zero => simp only [List.get] at hp ⊢; simp [List.find?, hp]
      | succ i =>
          have h0 : p m = false := by
            have := hfirst 0 (by simp) (Nat.succ_pos i)
            simpa using this
          have hp' : p (rest.get ⟨i, by simpa using hi⟩) = true := by simpa using hp
          have hfirst' : ∀ (j : Nat) (hj : j < rest.length), j < i →
              p (rest.get ⟨j, hj⟩) = false := by
            intro j hj hji
            have := hfirst (j + 1) (by simpa using Nat.succ_lt_succ hj)
              (Nat.succ_lt_succ hji)
            simpa using this
          simp only [List.find?, h0]
          simpa using ih i (by simpa using hi) hp' hfirst'

theorem chat_ids_append (l1 l2 : List NetAction) :
    chat_ids (l1 ++ l2) = chat_ids l1 ++ chat_ids l2 := by
  simp [chat_ids, List.filterMap_append]

theorem chat_ids_send_to_client_id_nonchat (fail : Nat → Bool) (st : ServerState)
    (cid : String) (p : Packet)
    (h : ∀ a b c d e f, p ≠ Packet.chat a b c d e f) :
    chat_ids (send_to_client_id fail st cid p) = [] := by
  unfold send_to_client_id
  cases dict_get st.clients cid with
  | none => rfl
  | some i =>
      by_cases hf : fail i.sock
      · simp [hf, chat_ids]
      · simp only [hf, if_false]
        cases p with
        | chat a b c d e f => exact absurd rfl (h a b c d e f)
        | welcome a b => simp [chat_ids]
        | receipt a b c d => simp [chat_ids]
        | client_list a => simp [chat_ids]
        | info a b => simp [chat_ids]
        | error a b => simp [chat_ids]

theorem chat_ids_broadcast_info (fail : Nat → Bool) (st : ServerState)
    (text : String) (ex : Option String) (now : Nat) :
    chat_ids (broadcast_info fail st text ex now) = [] := by
  unfold broadcast_info chat_ids
  rw [List.filterMap_filterMap]
  rw [List.filterMap_eq_nil_iff]
  intro p hp
  by_cases h1 : some p.1 = ex
  · simp [h1]
  · by_cases h2 : fail p.2.sock <;> simp [h1, h2]

theorem remove_client_effects (fail : Nat → Bool) (st : ServerState)
    (cid : String) (now : Nat) :
    (remove_client fail st cid now).1.message_counter = st.message_counter ∧
    chat_ids (remove_client fail st cid now).2 = [] := by
  unfold remove_client
  cases dict_get st.clients cid with
  | none => exact ⟨rfl, rfl⟩
  | some i =>
      refine ⟨rfl, ?_⟩
      have hb := chat_ids_broadcast_info fail
        { st with clients := dict_pop st.clients cid } (cid ++ " left the chat.")
        (some cid) now
      simpa [chat_ids, List.filterMap_cons] using hb

theorem chat_ids_send_error (fail : Nat → Bool) (st : ServerState) (cid : String)
    (text : String) (now : Nat) : chat_ids (send_error fail st cid text now) = [] := by
  unfold send_error
  exact chat_ids_send_to_client_id_nonchat fail st cid (Packet.error text now)
    (fun a b c d e f h => by cases h)

theorem chat_ids_send_info (fail : Nat → Bool) (st : ServerState) (cid : String)
    (text : String) (now : Nat) : chat_ids (send_info fail st cid text now) = [] := by
  unfold send_info
  exact chat_ids_send_to_client_id_nonchat fail st cid (Packet.info text now)
    (fun a b c d e f h => by cases h)

theorem chat_ids_send_client_list (fail : Nat → Bool) (st : ServerState)
    (cid : String) : chat_ids (send_client_list fail st cid) = [] := by
  unfold send_client_list
  exact chat_ids_send_to_client_id_nonchat fail st cid
    (Packet.client_list (client_list_snapshot st)) (fun a b c d e f h => by cases h)

theorem handle_client_message_chat_ids (fail : Nat → Bool) (st : ServerState)
    (cid : String) (m : ClientMsg) (now : Nat) :
    (chat_ids (handle_client_message fail st cid m now).acts = [] ∧
      st.message_counter ≤
        (handle_client_message fail st cid m now).state.message_counter) ∨
    (chat_ids (handle_client_message fail st cid m now).acts =
        [st.message_counter] ∧
      (handle_client_message fail st cid m now).state.message_counter =
        st.message_counter + 1) := by
  cases m with
  | malformed => exact Or.inl ⟨rfl, le_refl _⟩
  | list =>
      refine Or.inl ⟨?_, le_refl _⟩
      simp only [handle_client_message]
      exact chat_ids_send_client_list fail st cid
  | unknown t =>
      refine Or.inl ⟨?_, le_refl _⟩
      simp only [handle_client_message]
      exact chat_ids_send_error fail st cid _ now
  | exit =>
      refine Or.inl ⟨?_, ?_⟩
      · simp only [handle_client_message]
        rw [chat_ids_append, chat_ids_send_info,
          (remove_client_effects fail st cid now).2]
        rfl
      · simp only [handle_client_message]
        rw [(remove_client_effects fail st cid now).1]
  | chat imid tgt text rt =>
      cases ht : tgt.bind (fun t => dict_get st.clients t) with
      | none =>
          refine Or.inl ⟨?_, ?_⟩ <;>
            simp only [handle_client_message, route_chat_message, ht]
          · exact chat_ids_send_error fail st cid _ now
          · exact le_refl _
      | some tinfo =>
          by_cases hf : fail tinfo.sock
          · refine Or.inl ⟨?_, ?_⟩ <;>
              simp [handle_client_message, route_chat_message, ht, hf, chat_ids]
          · cases hs : dict_get st.clients cid with
            | none =>
                refine Or.inr ⟨?_, ?_⟩ <;>
                  simp [handle_client_message, route_chat_message, ht, hf, hs,
                    chat_ids]
            | some sinfo =>
                by_cases hf2 : fail sinfo.sock
                · refine Or.inr ⟨?_, ?_⟩ <;>
                    simp [handle_client_message, route_chat_message, ht, hf, hs,
                      hf2, chat_ids]
                · refine Or.inr ⟨?_, ?_⟩ <;>
                    simp [handle_client_message, route_chat_message, ht, hf, hs,
                      hf2, chat_ids]

theorem run_events_counter_mono (fail : Nat → Bool)
    (events : List (String × ClientMsg × Nat)) :
    ∀ st : ServerState,
      st.message_counter ≤ (run_events fail st events).1.message_counter := by
  induction events with
  | nil => intro st; exact le_refl _
  | cons e rest ih =>
      intro st
      obtain ⟨cid, m, now⟩ := e
      have hstep := handle_client_message_chat_ids fail st cid m now
      have h1 : st.message_counter ≤
          (handle_client_message fail st cid m now).state.message_counter := by
        rcases hstep with ⟨_, h⟩ | ⟨_, h⟩
        · exact h
        · omega
      calc st.message_counter
          ≤ (handle_client_message fail st cid m now).state.message_counter := h1
        _ ≤ _ := ih (handle_client_message fail st cid m now).state

theorem run_events_ids_lower (fail : Nat → Bool)
    (events : List (String × ClientMsg × Nat)) :
    ∀ (st : ServerState) (x : Nat), x ∈ chat_ids (run_events fail st events).2 →
      st.message_counter ≤ x := by
  induction events with
  | nil => intro st x hx; simp [run_events, chat_ids] at hx
  | cons e rest ih =>
      intro st x hx
      obtain ⟨cid, m, now⟩ := e
      simp only [run_events] at hx
      rw [chat_ids_append] at hx
      have hstep := handle_client_message_chat_ids fail st cid m now
      rcases List.mem_append.mp hx with hl | hr
      · rcases hstep with ⟨hnil, _⟩ | ⟨hone, _⟩
        · rw [hnil] at hl; cases hl
        · rw [hone] at hl
          rcases List.mem_singleton.mp hl with rfl
          exact le_refl _
      · have h1 : st.message_counter ≤
            (handle_client_message fail st cid m now).state.message_counter := by
          rcases hstep with ⟨_, h⟩ | ⟨_, h⟩
          · exact h
          · omega
        exact le_trans h1 (ih _ x hr)

theorem register_many_ids (conns : List (Nat × String)) :
    ∀ st : ServerState,
      (register_many st conns).2 =
        (List.range conns.length).map
          (fun i => client_id (st.next_client_id + i)) := by
  induction conns with
  | nil => intro st; simp [register_many]
  | cons c rest ih =>
      intro st
      obtain ⟨sock, addr⟩ := c
      simp only [register_many, register, List.length_cons]
      rw [ih]
      rw [List.range_succ_eq_map]
      simp only [List.map_cons, List.map_map, Nat.add_zero, Function.comp]
      have harith : ∀ i : Nat,
          st.next_client_id + 1 + i = st.next_client_id + (i + 1) := by omega
      simp [harith]

theorem dict_set_self_mem (l : List (String × CInfo)) (k : String) (v : CInfo) :
    (k, v) ∈ dict_set l k v := by
  unfold dict_set
  by_cases h : l.any (fun p => p.1 == k)
  · simp only [h, if_true]
    obtain ⟨p, hp, hpk⟩ := List.any_eq_true.mp h
    refine List.mem_map.mpr ⟨p, hp, ?_⟩
    simp [hpk]
  · simp [h]

theorem dict_set_keys_sub (l : List (String × CInfo)) (k : String) (v : CInfo) :
    ∀ p ∈ l, p.1 ∈ (dict_set l k v).map Prod.fst := by
  intro p hp
  unfold dict_set
  by_cases h : l.any (fun q => q.1 == k)
  · simp only [h, if_true, List.map_map]
    refine List.mem_map.mpr ⟨p, hp, ?_⟩
    by_cases hpk : p.1 == k
    · have : p.1 = k := by simpa using hpk
      simp [Function.comp, hpk, this]
    · simp [Function.comp, hpk]
  · rw [if_neg h, List.map_append]
    exact List.mem_append.mpr (Or.inl (List.mem_map.mpr ⟨p, hp, rfl⟩))

theorem dict_pop_keys_not_mem (l : List (String × CInfo)) (cid : String)
    (h : (l.map Prod.fst).Nodup) : cid ∉ (dict_pop l cid).map Prod.fst := by
  induction l with
  | nil => simp [dict_pop, List.eraseP]
  | cons q rest ih =>
      rw [List.map_cons, List.nodup_cons] at h
      unfold dict_pop
      by_cases hq : q.1 == cid
      · have he : List.eraseP (fun p => p.1 == cid) (q :: rest) = rest := by
          simp [List.eraseP_cons, hq]
        rw [he]
        have hqe : q.1 = cid := by simpa using hq
        rw [← hqe]
        exact h.1
      · have he : List.eraseP (fun p => p.1 == cid) (q :: rest) =
            q :: List.eraseP (fun p => p.1 == cid) rest := by
          simp [List.eraseP_cons, hq]
        rw [he, List.map_cons, List.mem_cons, not_or]
        refine ⟨?_, ih h.2⟩
        intro hee
        exact absurd (by simp [hee.symm]) hq

theorem client_list_snapshot_keys (st : ServerState) :
    (client_list_snapshot st).map Prod.fst = st.clients.map Prod.fst := by
  simp [client_list_snapshot, List.map_map, Function.comp]

theorem broadcast_map_aux (text : String) (cid : String) (now : Nat) :
    ∀ l : List (String × CInfo), (∀ p ∈ l, p.1 ≠ cid) →
      l.filterMap (fun p =>
        if some p.1 = some cid then none
        else if (false : Bool) then none
        else some (NetAction.send p.2.sock (Packet.info text now))) =
      l.map (fun p => NetAction.send p.2.sock (Packet.info text now)) := by
  intro l
  induction l with
  | nil => intro _; rfl
  | cons p rest ih =>
      intro hl
      have hp : p.1 ≠ cid := hl p (List.mem_cons_self p rest)
      simp only [Option.some.injEq, Bool.false_eq_true, if_false] at ih
      simp only [List.filterMap_cons, List.map_cons, Option.some.injEq,
        Bool.false_eq_true, if_false, hp]
      rw [ih (fun q hq => hl q (List.mem_cons_of_mem p hq))]

theorem broadcast_info_no_fail (st : ServerState) (text : String) (cid : String)
    (now : Nat) (h : ∀ p ∈ st.clients, p.1 ≠ cid) :
    broadcast_info (fun _ => false) st text (some cid) now =
      st.clients.map (fun p => NetAction.send p.2.sock (Packet.info text now)) := by
  unfold broadcast_info
  exact broadcast_map_aux text cid now st.clients h

/-! ## Claim theorems -/

/-- C5 (amended): feeding the decoder the stream in chunks split at
character boundaries yields exactly the same handled lines and the same
final buffer as feeding the whole stream at once — no byte loss, no
duplication, no change of line boundaries.  (The unamended claim, over
arbitrary *byte* positions, fails: see the counterexample.) -/
theorem c5_chunked_decode_eq_whole (chunks : List (List Char)) :
    feed_chunks [] chunks = feed_chunk [] chunks.flatten :=
  feed_chunks_eq_feed_whole chunks [] (by simp)

/-- C5 counterexample: the byte stream `"hi\né\n"` split after the first
byte of the two-byte character `é` makes the per-chunk
`data.decode(ENCODING)` raise `UnicodeDecodeError`, killing the read loop
(no lines handled at all), while the unsplit stream decodes to two lines —
so splitting at arbitrary byte positions does not preserve the packet
sequence. -/
theorem c5_counterexample_byte_split :
    feed_byte_chunks [] [[104, 105, 10, 195], [169, 10]] = ([], true) ∧
    feed_bytes_whole [104, 105, 10, 195, 169, 10] =
      ([['h', 'i'], ['é']], false) := by
  constructor
  · rfl
  · rfl

/-- C3: every sequence of `register` calls returns pairwise distinct
identities — the shared counter only increases and the `C%03d` rendering is
injective, so no two connections ever receive the same identity. -/
theorem c3_register_ids_pairwise_distinct (st : ServerState)
    (conns : List (Nat × String)) :
    ((register_many st conns).2).Pairwise (· ≠ ·) := by
  rw [register_many_ids]
  refine (List.pairwise_map).mpr ?_
  refine List.Pairwise.imp ?_ (List.pairwise_lt_range _)
  intro a b hab he
  have := client_id_injective he
  omega

/-- C10: the `welcome` packet of a freshly accepted connection carries a
snapshot taken after registration, so it contains the connection's own new
identity (with its address), and every previously registered identity is
still listed. -/
theorem c10_welcome_contains_self (fail : Nat → Bool) (st : ServerState)
    (sock : Nat) (addr : String) (now : Nat) (h : fail sock = false) :
    (handle_connect fail st sock addr now).acts.head? =
      some (NetAction.send sock
        (Packet.welcome (client_id st.next_client_id)
          (client_list_snapshot (handle_connect fail st sock addr now).state)))
    ∧ (client_id st.next_client_id, addr) ∈
        client_list_snapshot (handle_connect fail st sock addr now).state
    ∧ ∀ p ∈ st.clients, p.1 ∈
        (client_list_snapshot (handle_connect fail st sock addr now).state).map
          Prod.fst := by
  unfold handle_connect register
  simp only [h, Bool.false_eq_true, if_false]
  refine ⟨rfl, ?_, ?_⟩
  · exact List.mem_map.mpr
      ⟨(client_id st.next_client_id, ⟨sock, addr⟩), dict_set_self_mem _ _ _, rfl⟩
  · intro p hp
    rw [client_list_snapshot_keys]
    exact dict_set_keys_sub st.clients (client_id st.next_client_id)
      ⟨sock, addr⟩ p hp

/-- C10 witness: a concrete accepted connection on socket 5. -/
theorem c10_welcome_contains_self_witness :
    (handle_connect (fun _ => false) ⟨[("C001", ⟨1, "a1"⟩)], 2, 1⟩ 5 "a5" 3).acts.head? =
      some (NetAction.send 5
        (Packet.welcome (client_id 2)
          (client_list_snapshot
            (handle_connect (fun _ => false) ⟨[("C001", ⟨1, "a1"⟩)], 2, 1⟩ 5 "a5" 3).state)))
    ∧ (client_id 2, "a5") ∈
        client_list_snapshot
          (handle_connect (fun _ => false) ⟨[("C001", ⟨1, "a1"⟩)], 2, 1⟩ 5 "a5" 3).state
    ∧ ∀ p ∈ [(("C001" : String), (⟨1, "a1"⟩ : CInfo))], p.1 ∈
        (client_list_snapshot
          (handle_connect (fun _ => false) ⟨[("C001", ⟨1, "a1"⟩)], 2, 1⟩ 5 "a5" 3).state).map
          Prod.fst :=
  c10_welcome_contains_self (fun _ => false) ⟨[("C001", ⟨1, "a1"⟩)], 2, 1⟩ 5 "a5" 3 rfl

/-- C2: on a successfully routed chat, the receipt sent back carries the same
`message_id` as the forwarded chat packet, namely the current counter value
(chosen by the server alone — the incoming packet's own `message_id` field is
ignored), and the counter is bumped once; and across any server lifetime the
ids carried by forwarded chat packets are strictly increasing in allocation
order, hence never reused. -/
theorem c2_receipt_matches_forward_and_ids_strictly_increase :
    (∀ (fail : Nat → Bool) (st : ServerState) (cid : String) (imid : Option Nat)
        (tid : String) (text : Option String) (rt : Option Nat) (now : Nat)
        (tinfo sinfo : CInfo),
        dict_get st.clients tid = some tinfo →
        dict_get st.clients cid = some sinfo →
        fail tinfo.sock = false → fail sinfo.sock = false →
        route_chat_message fail st cid imid (some tid) text rt now =
          ⟨{ st with message_counter := st.message_counter + 1 },
           [NetAction.send tinfo.sock
              (Packet.chat st.message_counter cid tid (text.getD "") now rt),
            NetAction.send sinfo.sock
              (Packet.receipt st.message_counter tid "delivered" now)],
           false⟩)
    ∧ ∀ (fail : Nat → Bool) (st : ServerState)
        (events : List (String × ClientMsg × Nat)),
        List.Pairwise (· < ·) (chat_ids (run_events fail st events).2) := by
  constructor
  · intro fail st cid imid tid text rt now tinfo sinfo ht hs hf hf2
    simp [route_chat_message, py_str_opt, ht, hs, hf, hf2]
  · intro fail st events
    induction events generalizing st with
    | nil => simp [run_events, chat_ids]
    | cons e rest ih =>
        obtain ⟨cid, m, now⟩ := e
        simp only [run_events]
        rw [chat_ids_append, List.pairwise_append]
        refine ⟨?_, ih _, ?_⟩
        · rcases handle_client_message_chat_ids fail st cid m now with
            ⟨h1, _⟩ | ⟨h1, _⟩ <;> rw [h1] <;> simp
        · intro a ha b hb
          rcases handle_client_message_chat_ids fail st cid m now with
            ⟨h1, h2⟩ | ⟨h1, h2⟩
          · rw [h1] at ha; cases ha
          · rw [h1] at ha
            rcases List.mem_singleton.mp ha with rfl
            have hb2 := run_events_ids_lower fail rest _ b hb
            omega

/-- C2 witness: routing `C001 → C002` at counter 5 forwards with id 5 and
acknowledges with id 5, ignoring the client-supplied `message_id` 99. -/
theorem c2_receipt_matches_forward_witness :
    route_chat_message (fun _ => false)
        ⟨[("C001", ⟨1, "a1"⟩), ("C002", ⟨2, "a2"⟩)], 3, 5⟩ "C001" (some 99)
        (some "C002") (some "hi") none 7 =
      ⟨⟨[("C001", ⟨1, "a1"⟩), ("C002", ⟨2, "a2"⟩)], 3, 6⟩,
       [NetAction.send 2 (Packet.chat 5 "C001" "C002" "hi" 7 none),
        NetAction.send 1 (Packet.receipt 5 "C002" "delivered" 7)],
       false⟩ :=
  (c2_receipt_matches_forward_and_ids_strictly_increase).1 (fun _ => false)
    ⟨[("C001", ⟨1, "a1"⟩), ("C002", ⟨2, "a2"⟩)], 3, 5⟩ "C001" (some 99) "C002"
    (some "hi") none 7 ⟨2, "a2"⟩ ⟨1, "a1"⟩ rfl rfl rfl rfl

/-- C4: a chat whose `to` identity does not resolve produces exactly one
`error` packet to the sender naming the missing target; nothing is forwarded,
no receipt is sent, and the state — in particular the message counter — is
untouched (ids are allocated only after successful resolution). -/
theorem c4_unknown_target_error_only (fail : Nat → Bool) (st : ServerState)
    (cid : String) (imid : Option Nat) (tgt : Option String)
    (text : Option String) (rt : Option Nat) (now : Nat) (sinfo : CInfo)
    (ht : tgt.bind (fun t => dict_get st.clients t) = none)
    (hs : dict_get st.clients cid = some sinfo)
    (hf : fail sinfo.sock = false) :
    route_chat_message fail st cid imid tgt text rt now =
      ⟨st,
       [NetAction.send sinfo.sock
          (Packet.error ("Target client " ++ py_str_opt tgt ++ " not found.")
            now)],
       false⟩ := by
  simp [route_chat_message, send_error, send_to_client_id, ht, hs, hf]

/-- C4 witness: `C001` messages the unregistered `C999`; it gets one error
packet back and the counter stays at 4. -/
theorem c4_unknown_target_error_only_witness :
    route_chat_message (fun _ => false)
        ⟨[("C001", ⟨1, "a1"⟩), ("C002", ⟨2, "a2"⟩)], 3, 4⟩ "C001" none
        (some "C999") (some "hi") none 9 =
      ⟨⟨[("C001", ⟨1, "a1"⟩), ("C002", ⟨2, "a2"⟩)], 3, 4⟩,
       [NetAction.send 1 (Packet.error "Target client C999 not found." 9)],
       false⟩ :=
  c4_unknown_target_error_only (fun _ => false)
    ⟨[("C001", ⟨1, "a1"⟩), ("C002", ⟨2, "a2"⟩)], 3, 4⟩ "C001" none
    (some "C999") (some "hi") none 9 ⟨1, "a1"⟩ rfl rfl rfl

/-- C1 (amended): when the target resolves but the forwarding write to its
transport raises, the routing call sends the sender *nothing* — neither a
receipt (as the claim says) nor an error packet (contrary to the claim):
the `OSError` simply propagates out of `route_chat_message` (the message id
having already been consumed). -/
theorem c1_forward_failure_sends_nothing (fail : Nat → Bool) (st : ServerState)
    (cid : String) (imid : Option Nat) (tid : String) (text : Option String)
    (rt : Option Nat) (now : Nat) (tinfo : CInfo)
    (ht : dict_get st.clients tid = some tinfo)
    (hf : fail tinfo.sock = true) :
    route_chat_message fail st cid imid (some tid) text rt now =
      ⟨{ st with message_counter := st.message_counter + 1 }, [], true⟩ := by
  simp [route_chat_message, ht, hf]

/-- C1 witness: a concrete forward onto a closed target transport. -/
theorem c1_forward_failure_sends_nothing_witness :
    route_chat_message (fun s => s == 2)
        ⟨[("C001", ⟨1, "a1"⟩), ("C002", ⟨2, "a2"⟩)], 3, 1⟩ "C001" none
        (some "C002") (some "hi") none 4 =
      ⟨⟨[("C001", ⟨1, "a1"⟩), ("C002", ⟨2, "a2"⟩)], 3, 2⟩, [], true⟩ :=
  c1_forward_failure_sends_nothing (fun s => s == 2)
    ⟨[("C001", ⟨1, "a1"⟩), ("C002", ⟨2, "a2"⟩)], 3, 1⟩ "C001" none "C002"
    (some "hi") none 4 ⟨2, "a2"⟩ rfl rfl

/-- C1 counterexample: `C003` messages `C004`, whose transport (socket 7)
fails on write.  The routing call performs no sends at all — in particular
the sender receives *no* error packet, refuting the claim that the failure
is reported to the sender as an `error`; instead the exception escapes. -/
theorem c1_counterexample_no_error_packet :
    (route_chat_message (fun s => s == 7)
        ⟨[("C003", ⟨5, "a3"⟩), ("C004", ⟨7, "a4"⟩)], 5, 9⟩ "C003" none
        (some "C004") (some "yo") none 2).acts = [] ∧
    (route_chat_message (fun s => s == 7)
        ⟨[("C003", ⟨5, "a3"⟩), ("C004", ⟨7, "a4"⟩)], 5, 9⟩ "C003" none
        (some "C004") (some "yo") none 2).exn = true :=
  ⟨rfl, rfl⟩

/-- C8 (amended): on an `exit` packet the server sends the requester an
`info` goodbye, pops its registry entry (so later snapshots exclude the
identity), closes its transport, and broadcasts exactly one leave notice to
each remaining client; removal is idempotent (a second removal is a no-op).
However — contrary to the claim — the connection state is *not* terminal:
`process_lines` keeps dispatching whatever decoded lines were already
buffered after the `exit` (see the counterexample). -/
theorem c8_exit_goodbye_remove_broadcast_nonterminal :
    (∀ (st : ServerState) (cid : String) (i : CInfo) (now : Nat),
        (st.clients.map Prod.fst).Nodup →
        dict_get st.clients cid = some i →
        handle_client_message (fun _ => false) st cid ClientMsg.exit now =
          ⟨{ st with clients := dict_pop st.clients cid },
           NetAction.send i.sock (Packet.info "Goodbye!" now) ::
             NetAction.close i.sock ::
             (dict_pop st.clients cid).map
               (fun p => NetAction.send p.2.sock
                 (Packet.info (cid ++ " left the chat.") now)),
           false⟩
        ∧ cid ∉ (client_list_snapshot
            { st with clients := dict_pop st.clients cid }).map Prod.fst)
    ∧ (∀ (fail : Nat → Bool) (st : ServerState) (cid : String) (now : Nat),
        dict_get st.clients cid = none →
        remove_client fail st cid now = (st, []))
    ∧ (∀ (fail : Nat → Bool) (st : ServerState) (cid : String)
        (rest : List ClientMsg) (now : Nat),
        process_lines fail st cid (ClientMsg.exit :: rest) now =
          ⟨(process_lines fail
              (handle_client_message fail st cid ClientMsg.exit now).state cid
              rest now).state,
           (handle_client_message fail st cid ClientMsg.exit now).acts ++
             (process_lines fail
               (handle_client_message fail st cid ClientMsg.exit now).state cid
               rest now).acts,
           (process_lines fail
              (handle_client_message fail st cid ClientMsg.exit now).state cid
              rest now).exn⟩) := by
  refine ⟨?_, ?_, ?_⟩
  · intro st cid i now hnd hget
    have hnot : cid ∉ (dict_pop st.clients cid).map Prod.fst :=
      dict_pop_keys_not_mem st.clients cid hnd
    have hne : ∀ p ∈ (dict_pop st.clients cid), p.1 ≠ cid := by
      intro p hp he
      exact hnot (List.mem_map.mpr ⟨p, hp, he⟩)
    refine ⟨?_, ?_⟩
    · simp only [handle_client_message, send_info, send_to_client_id,
        remove_client, hget]
      rw [broadcast_info_no_fail _ _ _ _ hne]
      simp
    · rw [client_list_snapshot_keys]
      exact hnot
  · intro fail st cid now h
    simp [remove_client, h]
  · intro fail st cid rest now
    have hexn : (handle_client_message fail st cid ClientMsg.exit now).exn =
        false := rfl
    simp only [process_lines, hexn, Bool.false_eq_true, if_false]

/-- C8 witness: `C001` exits from a two-client registry. -/
theorem c8_exit_witness :
    handle_client_message (fun _ => false)
        ⟨[("C001", ⟨1, "a1"⟩), ("C002", ⟨2, "a2"⟩)], 3, 1⟩ "C001"
        ClientMsg.exit 0 =
      ⟨⟨[("C002", ⟨2, "a2"⟩)], 3, 1⟩,
       [NetAction.send 1 (Packet.info "Goodbye!" 0), NetAction.close 1,
        NetAction.send 2 (Packet.info "C001 left the chat." 0)], false⟩
    ∧ "C001" ∉
        (client_list_snapshot (⟨[("C002", ⟨2, "a2"⟩)], 3, 1⟩ : ServerState)).map
          Prod.fst :=
  (c8_exit_goodbye_remove_broadcast_nonterminal).1
    ⟨[("C001", ⟨1, "a1"⟩), ("C002", ⟨2, "a2"⟩)], 3, 1⟩ "C001" ⟨1, "a1"⟩ 0
    (by decide) rfl

/-- C8 counterexample: a single read containing `exit` followed by a chat
line.  After the exit is fully processed (goodbye, close, leave broadcast),
the buffered chat from the same — now deregistered — connection is *still*
routed: `C002` receives a forwarded chat with a freshly allocated id 1.
The state after `exit` is therefore not terminal, refuting that part of the
claim. -/
theorem c8_counterexample_processes_after_exit :
    process_lines (fun _ => false)
        ⟨[("C001", ⟨1, "a1"⟩), ("C002", ⟨2, "a2"⟩)], 3, 1⟩ "C001"
        [ClientMsg.exit, ClientMsg.chat none (some "C002") (some "hi") none]
        0 =
      ⟨⟨[("C002", ⟨2, "a2"⟩)], 3, 2⟩,
       [NetAction.send 1 (Packet.info "Goodbye!" 0), NetAction.close 1,
        NetAction.send 2 (Packet.info "C001 left the chat." 0),
        NetAction.send 2 (Packet.chat 1 "C001" "C002" "hi" 0 none)],
       false⟩ := by
  rfl

/-- C7: reconciling a receipt for peer `P` with id `N` fills exactly the
first history entry (in append order) that is outbound, pending (`id`
absent), addressed to `P` and not deleted — `List.set` at that position
leaves every other entry untouched — and leaves the history unchanged when
no entry qualifies. -/
theorem c7_receipt_fills_first_pending_outbound :
    (∀ (h : List Entry) (P : String) (N : Nat) (i : Nat) (hi : i < h.length),
        receipt_matchb (some P) (h.get ⟨i, hi⟩) = true →
        (∀ (j : Nat) (hj : j < h.length), j < i →
          receipt_matchb (some P) (h.get ⟨j, hj⟩) = false) →
        handle_receipt h (some P) (some N) =
          h.set i { h.get ⟨i, hi⟩ with id := some N })
    ∧ (∀ (h : List Entry) (P : String) (N : Nat),
        (∀ m ∈ h, receipt_matchb (some P) m = false) →
        handle_receipt h (some P) (some N) = h) := by
  constructor
  · intro h P N i hi hp hfirst
    unfold handle_receipt
    exact py_first_update_eq_set _ _ h i hi hp hfirst
  · intro h P N hall
    unfold handle_receipt
    exact py_first_update_no_match _ _ h hall

/-- C7 witness: an inbound entry is skipped, the first pending outbound
entry for the peer gets id 7, the later pending entry stays untouched. -/
theorem c7_receipt_fills_first_pending_outbound_witness :
    handle_receipt
        [⟨some 3, "in", "C002", "x", some 0, none, none, false⟩,
         ⟨none, "out", "C002", "y", some 1, none, none, false⟩,
         ⟨none, "out", "C002", "z", some 2, none, none, false⟩]
        (some "C002") (some 7) =
      [⟨some 3, "in", "C002", "x", some 0, none, none, false⟩,
       ⟨some 7, "out", "C002", "y", some 1, none, none, false⟩,
       ⟨none, "out", "C002", "z", some 2, none, none, false⟩] :=
  (c7_receipt_fills_first_pending_outbound).1
    [⟨some 3, "in", "C002", "x", some 0, none, none, false⟩,
     ⟨none, "out", "C002", "y", some 1, none, none, false⟩,
     ⟨none, "out", "C002", "z", some 2, none, none, false⟩]
    "C002" 7 1 (by decide) (by decide) (by decide)

/-- C6 (amended): the temporal-deletion worker marks deleted the *first*
non-deleted entry whose text and deadline equal the armed `(text,
temp_until)` pair — a content match, not an object-identity match; when no
entry qualifies the history is unchanged; and when at most one entry matches
the armed pair, firing a second time is a no-op. -/
theorem c6_cleanup_marks_first_content_match :
    (∀ (h : List Entry) (tu : Nat) (tx : String) (i : Nat) (hi : i < h.length),
        temp_matchb tu tx (h.get ⟨i, hi⟩) = true →
        (∀ (j : Nat) (hj : j < h.length), j < i →
          temp_matchb tu tx (h.get ⟨j, hj⟩) = false) →
        temp_cleanup_worker h tu tx =
          h.set i { h.get ⟨i, hi⟩ with deleted := true })
    ∧ (∀ (h : List Entry) (tu : Nat) (tx : String),
        (∀ m ∈ h, temp_matchb tu tx m = false) → temp_cleanup_worker h tu tx = h)
    ∧ (∀ (h : List Entry) (tu : Nat) (tx : String),
        (h.filter (temp_matchb tu tx)).length ≤ 1 →
        temp_cleanup_worker (temp_cleanup_worker h tu tx) tu tx =
          temp_cleanup_worker h tu tx) := by
  refine ⟨?_, ?_, ?_⟩
  · intro h tu tx i hi hp hfirst
    unfold temp_cleanup_worker
    exact py_first_update_eq_set _ _ h i hi hp hfirst
  · intro h tu tx hall
    unfold temp_cleanup_worker
    exact py_first_update_no_match _ _ h hall
  · intro h tu tx hlen
    unfold temp_cleanup_worker
    exact py_first_update_idem _ _ (fun a _ => by simp [temp_matchb]) h hlen

/-- C6 witness: the unique matching temporal entry is marked, and a second
firing changes nothing. -/
theorem c6_cleanup_marks_first_content_match_witness :
    temp_cleanup_worker
        [⟨some 1, "in", "C002", "hi", some 0, none, none, false⟩,
         ⟨none, "out", "C002", "hi", some 0, none, some 5, false⟩] 5 "hi" =
      [⟨some 1, "in", "C002", "hi", some 0, none, none, false⟩,
       ⟨none, "out", "C002", "hi", some 0, none, some 5, true⟩]
    ∧ temp_cleanup_worker
        (temp_cleanup_worker
          [⟨some 1, "in", "C002", "hi", some 0, none, none, false⟩,
           ⟨none, "out", "C002", "hi", some 0, none, some 5, false⟩] 5 "hi")
        5 "hi" =
      temp_cleanup_worker
        [⟨some 1, "in", "C002", "hi", some 0, none, none, false⟩,
         ⟨none, "out", "C002", "hi", some 0, none, some 5, false⟩] 5 "hi" :=
  ⟨(c6_cleanup_marks_first_content_match).1
      [⟨some 1, "in", "C002", "hi", some 0, none, none, false⟩,
       ⟨none, "out", "C002", "hi", some 0, none, some 5, false⟩] 5 "hi" 1
      (by decide) (by decide) (by decide),
   (c6_cleanup_marks_first_content_match).2.2
      [⟨some 1, "in", "C002", "hi", some 0, none, none, false⟩,
       ⟨none, "out", "C002", "hi", some 0, none, some 5, false⟩] 5 "hi"
      (by decide)⟩

/-- C6 counterexample: two history entries with identical text `"hi"` and
identical deadline 5 (duplicate temporal sends).  The timer armed when the
*second* entry was sent fires and marks the *first* entry — the match is by
content, not by the identity of the scheduled entry object; and firing a
second time, although the first entry is already deleted, is *not* a no-op:
it marks the second entry too. -/
theorem c6_counterexample_content_match_not_identity :
    temp_cleanup_worker
        [⟨none, "out", "C002", "hi", some 0, none, some 5, false⟩,
         ⟨none, "out", "C002", "hi", some 0, none, some 5, false⟩] 5 "hi" =
      [⟨none, "out", "C002", "hi", some 0, none, some 5, true⟩,
       ⟨none, "out", "C002", "hi", some 0, none, some 5, false⟩]
    ∧ temp_cleanup_worker
        (temp_cleanup_worker
          [⟨none, "out", "C002", "hi", some 0, none, some 5, false⟩,
           ⟨none, "out", "C002", "hi", some 0, none, some 5, false⟩] 5 "hi")
        5 "hi" =
      [⟨none, "out", "C002", "hi", some 0, none, some 5, true⟩,
       ⟨none, "out", "C002", "hi", some 0, none, some 5, true⟩] :=
  ⟨rfl, rfl⟩

/-- C9: `send_reply` resolves the reply target by scanning for the first
entry whose `id` equals the requested message id — with no condition on the
`deleted` flag, so soft-deleted entries remain resolvable — and sends one
chat to that entry's peer; when no entry carries the id, it returns having
sent nothing (the failure is only reported locally). -/
theorem c9_reply_resolves_soft_deleted :
    (∀ (h : List Entry) (N : Nat) (txt : String) (now : Nat) (i : Nat)
        (hi : i < h.length),
        (h.get ⟨i, hi⟩).id = some N →
        (∀ (j : Nat) (hj : j < h.length), j < i →
          (h.get ⟨j, hj⟩).id ≠ some N) →
        send_reply h N txt now =
          (h ++ [⟨none, "out", (h.get ⟨i, hi⟩).peer, txt, some now, some N,
            none, false⟩],
           [((h.get ⟨i, hi⟩).peer, txt, some N)]))
    ∧ (∀ (h : List Entry) (N : Nat) (txt : String) (now : Nat),
        (∀ m ∈ h, m.id ≠ some N) → send_reply h N txt now = (h, [])) := by
  constructor
  · intro h N txt now i hi hid hfirst
    have hfind : h.find? (fun m => m.id == some N) = some (h.get ⟨i, hi⟩) := by
      apply find?_eq_get_of_first
      · simpa using hid
      · intro j hj hji
        simpa using hfirst j hj hji
    unfold send_reply
    rw [hfind]
    rfl
  · intro h N txt now hall
    have hfind : h.find? (fun m => m.id == some N) = none := by
      rw [List.find?_eq_none]
      intro m hm
      simpa using hall m hm
    unfold send_reply
    rw [hfind]

/-- C9 witness: the only entry with id 4 is soft-deleted, yet the reply
resolves to its peer `C007` and one chat packet is emitted. -/
theorem c9_reply_resolves_soft_deleted_witness :
    send_reply [⟨some 4, "in", "C007", "secret", some 0, none, some 9, true⟩]
        4 "re" 6 =
      ([⟨some 4, "in", "C007", "secret", some 0, none, some 9, true⟩,
        ⟨none, "out", "C007", "re", some 6, some 4, none, false⟩],
       [("C007", "re", some 4)]) :=
  (c9_reply_resolves_soft_deleted).1
    [⟨some 4, "in", "C007", "secret", some 0, none, some 9, true⟩] 4 "re" 6 0
    (by decide) (by decide) (by decide)
